import Mathlib

/-!
Shallow embedding of `validator/val_sigcrypt.c` (DNSSEC signature-verification
core of the unbound validator).

Wire data is modelled as `List Nat` of byte values; every `rr_data[i]` entry
carries its 2-byte rdlen prefix, exactly as in the C data model.  Machine
integers are modelled as `Nat`/`Int` with explicit reductions mod 2^16 / 2^32
where the C code relies on fixed-width behaviour.  The helpers from
`util/data/dname.c`, ldns and OpenSSL that `val_sigcrypt.c` calls are not part
of the given source tree; they are modelled from the specification and are
marked as such in their doc comments.  The SHA-1/SHA-256 one-shot hash
primitives are kept abstract (passed as function parameters).
-/

/-- Byte strings: each element is one octet value. -/
abbrev Bytes := List Nat

/-- ASCII `tolower` on one byte, as used by the C code on name bytes. -/
def tolower_byte (b : Nat) : Nat :=
  if 65 ≤ b ∧ b ≤ 90 then b + 32 else b

/-- Read two bytes big-endian (the effect of `memmove` into a `uint16_t`
followed by `ntohs`, which is host-independent). -/
def beRead16 (l : Bytes) : Nat :=
  256 * l.getD 0 0 + l.getD 1 0

/-- Read four bytes big-endian (the effect of `memmove` into a 32-bit integer
followed by `ntohl`, which is host-independent). -/
def beRead32 (l : Bytes) : Nat :=
  16777216 * l.getD 0 0 + 65536 * l.getD 1 0 + 256 * l.getD 2 0 + l.getD 3 0

/-- The two bytes of a `uint16_t` that is stored in network byte order
(big endian), e.g. `rrset->rk.type`. -/
def beBytes16 (n : Nat) : Bytes :=
  [n / 256 % 256, n % 256]

/-- The in-memory bytes of a host-order `uint16_t` variable, as compared by
`memcmp(..., &ktag, 2)` at line 743 of the source.  The source omits the
`htons` conversion there, so the memory layout of the host leaks into the
comparison; this model fixes the host to little endian, the byte order of the
platforms this resolver predominantly runs on. -/
def uint16_le (n : Nat) : Bytes :=
  [n % 256, n / 256 % 256]

/-- Read two bytes in host (little-endian) order: the effect of
`memmove(&t, p, 2)` with no `ntohs`, as in `rrset_get_sig_keytag`. -/
def leRead16 (l : Bytes) : Nat :=
  l.getD 0 0 + 256 * l.getD 1 0

/-- Reinterpret a natural number as a 32-bit two's-complement signed value. -/
def toSigned32 (n : Nat) : Int :=
  let m := n % 4294967296
  if m < 2147483648 then (m : Int) else (m : Int) - 4294967296

/-- 32-bit signed subtraction with wrap-around: the serial-number arithmetic
of RFC 4034 section 3.1.5 that `check_dates` relies on. -/
def int32_sub (a b : Int) : Int :=
  toSigned32 ((a - b) % 4294967296).toNat

/-- The "not after" comparison of the date check, in the words of the
specification: `a ≤ b` iff the 32-bit signed difference `a - b` is not
positive. -/
def sle32 (a b : Int) : Bool :=
  int32_sub a b ≤ 0

/-- Modelled from the spec: `query_dname_tolower` of `util/data/dname.c`
(not under `src/`): lower-case the label characters of an uncompressed wire
dname, walking label by label and stopping at the root label; bytes after the
root label (and label length bytes) are left unchanged.  The first argument is
the number of bytes still to lower in the current label (0 when the walker is
positioned on a label length byte). -/
def query_dname_tolower_go : Bytes → Nat → Bytes
  | [], _ => []
  | b :: rest, 0 => if b = 0 then b :: rest else b :: query_dname_tolower_go rest b
  | b :: rest, s + 1 => tolower_byte b :: query_dname_tolower_go rest s

/-- Modelled from the spec: DNS-lowercase a wire dname in place (entry point,
starting on the first label length byte). -/
def query_dname_tolower (l : Bytes) : Bytes :=
  query_dname_tolower_go l 0

/-- Modelled from the spec: the portion of a byte string that a wire-dname
walker examines, up to and including the root label (used to model that
`query_dname_compare` never looks past the root label). -/
def dname_wire_go : Bytes → Nat → Bytes
  | [], _ => []
  | b :: rest, 0 => if b = 0 then [0] else b :: dname_wire_go rest b
  | b :: rest, s + 1 => b :: dname_wire_go rest s

/-- Modelled from the spec: the wire-dname prefix of a byte string. -/
def dname_wire (l : Bytes) : Bytes :=
  dname_wire_go l 0

/-- Modelled from the spec: `query_dname_compare` of `util/data/dname.c`
(not under `src/`): case-insensitive comparison of two uncompressed wire
dnames.  The caller in this file only distinguishes zero from nonzero, so the
model returns 0 on case-insensitive equality of the dname portions and 1
otherwise. -/
def query_dname_compare (a b : Bytes) : Int :=
  if query_dname_tolower (dname_wire a) = query_dname_tolower (dname_wire b) then 0 else 1

/-- Modelled from the spec: `dname_valid` of `util/data/dname.c` (not under
`src/`): length in bytes of a valid uncompressed wire dname that fits in
`maxlen` bytes, or 0 when invalid.  Labels of 64 bytes or more (compression
bits set) and total lengths above 255 are invalid.  The walker consumes one
byte per step; the third argument is the length acknowledged so far, the
fourth is the number of bytes left in the current label. -/
def dname_valid_go : Bytes → Nat → Nat → Nat → Nat
  | [], _, _, _ => 0
  | b :: rest, maxlen, len, 0 =>
    if b = 0 then (if 255 < len + 1 then 0 else len + 1)
    else if 64 ≤ b then 0
    else if maxlen ≤ len + b + 1 then 0
    else dname_valid_go rest maxlen (len + b + 1) b
  | _ :: rest, maxlen, len, s + 1 => dname_valid_go rest maxlen len s

/-- Modelled from the spec: entry point of the wire-dname validity check. -/
def dname_valid (l : Bytes) (maxlen : Nat) : Nat :=
  dname_valid_go l maxlen 0 0

/-- Modelled from the spec: label counting walker for
`dname_signame_label_count` (one byte per step; second argument is the number
of bytes left in the current label, third the labels counted so far). -/
def dname_label_count_go : Bytes → Nat → Nat → Nat
  | [], _, acc => acc
  | b :: rest, 0, acc => if b = 0 then acc else dname_label_count_go rest b (acc + 1)
  | _ :: rest, s + 1, acc => dname_label_count_go rest s acc

/-- Modelled from the spec: `dname_signame_label_count` of
`util/data/dname.c` (not under `src/`): number of labels of a wire dname, not
counting the root label and not counting a leading wildcard label. -/
def dname_signame_label_count (l : Bytes) : Nat :=
  dname_label_count_go (if List.take 2 l = [1, 42] then List.drop 2 l else l) 0 0

/-- Modelled from the spec: `dname_remove_label` of `util/data/dname.c` (not
under `src/`): advance past the first label of a wire dname. -/
def dname_remove_label (l : Bytes) : Bytes :=
  List.drop (l.getD 0 0 + 1) l

/-- Iterate `dname_remove_label`, as the loop in `insert_can_owner` does. -/
def remove_labels : Nat → Bytes → Bytes
  | 0, l => l
  | n + 1, l => remove_labels n (dname_remove_label l)

/-- Modelled from the spec: `ldns_calc_keytag_raw` (external ldns library):
the RFC 4034 Appendix B keytag over DNSKEY RDATA bytes (without the rdlen
prefix).  Algorithm RSAMD5 (appendix B.1) takes the two bytes third and
second from the end; all other algorithms use the ones-complement-style sum. -/
def ldns_calc_keytag_raw (key : Bytes) : Nat :=
  if key.length < 4 then 0
  else if key.getD 3 0 = 1 then
    (if 4 < key.length then 256 * key.getD (key.length - 3) 0 + key.getD (key.length - 2) 0 else 0)
  else
    let ac := (List.range key.length).foldl
      (fun a i => a + (if i % 2 = 1 then key.getD i 0 else 256 * key.getD i 0)) 0
    (ac + ac / 65536 % 65536) % 65536

/-- The `packed_rrset_data` payload of an rrset cache entry: `count` data RRs
followed by `rrsig_count` RRSIG RRs in `rr_data`; each entry carries its
2-byte rdlen prefix, and the C `rr_len[i]` field always equals the length of
the `rr_data[i]` byte string (structure invariant of the rrset cache). -/
structure PackedRrsetData where
  count : Nat
  rrsig_count : Nat
  rr_data : List Bytes

/-- The `ub_packed_rrset_key` container: owner dname in wire form (the C
`rk.dname_len` always equals the length of the dname byte string), type and
class as the 16-bit host values whose in-memory `uint16_t` representation is
network byte order, and the packed data (the C `entry.data` pointer; a NULL
pointer cannot arise for the rrsets the claims quantify over, so the payload
is modelled as always present). -/
structure UbPackedRrsetKey where
  rk_dname : Bytes
  rk_type : Nat
  rk_class : Nat
  entry_data : PackedRrsetData

/-- The three `sec_status` values this file returns. -/
inductive SecStatus where
  | unchecked : SecStatus
  | bogus : SecStatus
  | secure : SecStatus
deriving DecidableEq

/-- The validator environment: `date_override` as in `struct val_env`, plus
the value the `time(0)` call would deliver (the injected system clock). -/
structure ValEnv where
  date_override : Int
  sys_time : Int

/-- The module environment: of its members this file uses only the scratch
buffer (whose contents are modelled functionally) and the scratch region;
`scratch_ok` models whether `region_alloc` on the scratch region succeeds. -/
structure ModuleEnv where
  scratch_ok : Bool

/-- `rrset_get_count`: number of data RRs (the C NULL-data branch returns 0;
see the data model note on `UbPackedRrsetKey`). -/
def rrset_get_count (rrset : UbPackedRrsetKey) : Nat :=
  rrset.entry_data.count

/-- `rrset_get_sigcount`: number of RRSIG RRs. -/
def rrset_get_sigcount (k : UbPackedRrsetKey) : Nat :=
  k.entry_data.rrsig_count

/-- `rrset_get_rdata`: rdata byte string (with rdlen prefix) and its length. -/
def rrset_get_rdata (k : UbPackedRrsetKey) (idx : Nat) : Bytes × Nat :=
  ((k.entry_data.rr_data.getD idx []), (k.entry_data.rr_data.getD idx []).length)

/-- `rrset_get_sig_keytag`: the two keytag bytes of signature `sig_idx`, read
by `memmove` into a host-order `uint16_t` with no `ntohs` (little-endian
host, see `uint16_le`); 0 if the rrsig is shorter than 2+18 bytes. -/
def rrset_get_sig_keytag (k : UbPackedRrsetKey) (sig_idx : Nat) : Nat :=
  if (rrset_get_rdata k (k.entry_data.count + sig_idx)).2 < 2 + 18 then 0
  else leRead16 (List.drop 18 (rrset_get_rdata k (k.entry_data.count + sig_idx)).1)

/-- `rrset_get_sig_algo`: the algorithm byte of signature `sig_idx` (rdata
offset 2+2), or 0 if the rrsig is shorter than 2+3 bytes. -/
def rrset_get_sig_algo (k : UbPackedRrsetKey) (sig_idx : Nat) : Nat :=
  if (rrset_get_rdata k (k.entry_data.count + sig_idx)).2 < 2 + 3 then 0
  else ((rrset_get_rdata k (k.entry_data.count + sig_idx)).1).getD 4 0

/-- `dnskey_get_flags`: the 16-bit flags field (rdata offset 2, `ntohs`
converted), or 0 on short rdata. -/
def dnskey_get_flags (k : UbPackedRrsetKey) (idx : Nat) : Nat :=
  if (rrset_get_rdata k idx).2 < 2 + 2 then 0
  else beRead16 (List.drop 2 (rrset_get_rdata k idx).1)

/-- `dnskey_get_algo`: the DNSKEY algorithm byte (rdata offset 2+3), or 0 on
short rdata. -/
def dnskey_get_algo (k : UbPackedRrsetKey) (idx : Nat) : Nat :=
  if (rrset_get_rdata k idx).2 < 2 + 4 then 0
  else ((rrset_get_rdata k idx).1).getD 5 0

/-- `ds_get_digest_algo`: the DS digest type byte (rdata offset 2+3), or 0 on
short rdata. -/
def ds_get_digest_algo (k : UbPackedRrsetKey) (idx : Nat) : Nat :=
  if (rrset_get_rdata k idx).2 < 2 + 4 then 0
  else ((rrset_get_rdata k idx).1).getD 5 0

/-- `ds_get_sigdata`: digest bytes of a DS RR (rdata offset 2+4 onward) and
their length; `(none, 0)` when the rdata is shorter than 2+5 bytes. -/
def ds_get_sigdata (k : UbPackedRrsetKey) (idx : Nat) : Option Bytes × Nat :=
  if (rrset_get_rdata k idx).2 < 2 + 5 then (none, 0)
  else (some (List.drop 6 (rrset_get_rdata k idx).1), (rrset_get_rdata k idx).2 - 2 - 4)

/-- `ds_digest_size_algo`: size of the digest demanded by the DS digest type
(LDNS_SHA1 = 1 with SHA_DIGEST_LENGTH = 20, LDNS_SHA256 = 2 with
SHA256_DIGEST_LENGTH = 32), or 0 when unsupported. -/
def ds_digest_size_algo (k : UbPackedRrsetKey) (idx : Nat) : Nat :=
  if ds_get_digest_algo k idx = 1 then 20
  else if ds_get_digest_algo k idx = 2 then 32
  else 0

/-- `dnskey_calc_keytag`: keytag over the DNSKEY rdata without its rdlen
prefix. -/
def dnskey_calc_keytag (dnskey_rrset : UbPackedRrsetKey) (dnskey_idx : Nat) : Nat :=
  ldns_calc_keytag_raw (List.drop 2 (rrset_get_rdata dnskey_rrset dnskey_idx).1)

/-- `ds_create_dnskey_digest`: build the digest input
`lowercased(DNSKEY owner name) | DNSKEY RDATA without rdlen` in the scratch
buffer and hash it with the function selected by the DS digest type.  The
SHA-1 and SHA-256 one-shot primitives (external OpenSSL) are abstract
parameters; `none` models the C return value 0 (unsupported digest type). -/
def ds_create_dnskey_digest (sha1 sha256 : Bytes → Bytes)
    (dnskey_rrset : UbPackedRrsetKey) (dnskey_idx : Nat)
    (ds_rrset : UbPackedRrsetKey) (ds_idx : Nat) : Option Bytes :=
  let b := query_dname_tolower dnskey_rrset.rk_dname
    ++ List.drop 2 (rrset_get_rdata dnskey_rrset dnskey_idx).1
  if ds_get_digest_algo ds_rrset ds_idx = 1 then some (sha1 b)
  else if ds_get_digest_algo ds_rrset ds_idx = 2 then some (sha256 b)
  else none

/-- `ds_digest_match_dnskey`: false on unsupported digest type, on a DS digest
field whose length disagrees with the digest type, on scratch allocation
failure and on digest-creation failure; otherwise the `memcmp` of `dslen`
bytes of the computed digest against the DS digest field decides the result. -/
def ds_digest_match_dnskey (sha1 sha256 : Bytes → Bytes) (env : ModuleEnv)
    (dnskey_rrset : UbPackedRrsetKey) (dnskey_idx : Nat)
    (ds_rrset : UbPackedRrsetKey) (ds_idx : Nat) : Bool :=
  if ds_digest_size_algo ds_rrset ds_idx = 0 then false
  else if (ds_get_sigdata ds_rrset ds_idx).1 = none then false
  else if (ds_get_sigdata ds_rrset ds_idx).2 ≠ ds_digest_size_algo ds_rrset ds_idx then false
  else if env.scratch_ok = false then false
  else
    match ds_create_dnskey_digest sha1 sha256 dnskey_rrset dnskey_idx ds_rrset ds_idx with
    | none => false
    | some digest =>
      if List.take (ds_get_sigdata ds_rrset ds_idx).2 digest
         = List.take (ds_get_sigdata ds_rrset ds_idx).2 ((ds_get_sigdata ds_rrset ds_idx).1.getD [])
      then true else false

/-- `canonical_sort`: the C body is empty (it neither sorts nor deduplicates),
so the model is the identity. -/
def canonical_sort (rrset : UbPackedRrsetKey) : UbPackedRrsetKey :=
  rrset

/-- `lowercase_text_field`: lower-case a length-prefixed character-string. -/
def lowercase_text_field (l : Bytes) : Bytes :=
  match l with
  | [] => []
  | n :: rest => n :: (List.map tolower_byte (List.take n rest) ++ List.drop n rest)

/-- Apply the dname lower-caser at a byte offset of a buffer region, leaving
the bytes before the offset unchanged (the effect of
`query_dname_tolower(p + off)`). -/
def lowerAt (l : Bytes) (off : Nat) : Bytes :=
  List.take off l ++ query_dname_tolower (List.drop off l)

/-- `insert_can_owner`: the canonical owner bytes appended to the buffer (and
remembered for the later RRs of the set).  `sig` is the RRSIG rdata without
its rdlen prefix, so `sig[3]` is the labels field.  When the rrsig label count
equals the owner label count the lower-cased owner is written; when it is
smaller, a wildcard label followed by the owner stripped of its leftmost
labels; when it is larger (only reachable past a debug assertion) nothing is
written. -/
def insert_can_owner (k : UbPackedRrsetKey) (sig : Bytes) : Bytes :=
  if sig.getD 3 0 = dname_signame_label_count k.rk_dname then
    query_dname_tolower k.rk_dname
  else if sig.getD 3 0 < dname_signame_label_count k.rk_dname then
    query_dname_tolower
      ([1, 42] ++ remove_labels (dname_signame_label_count k.rk_dname - sig.getD 3 0) k.rk_dname)
  else []

/-- `canonicalize_rdata`: type-dependent lower-casing of embedded dnames and
text fields inside the rdata entry (with rdlen prefix) that was just written
into the buffer.  `rtype` is the host value `ntohs(rrset->rk.type)`; the
numeric cases are the LDNS_RR_TYPE codes of the C switch, in source order:
NXT 30, NSEC 47, NS 2, MD 3, MF 4, CNAME 5, MB 7, MG 8, MR 9, PTR 12,
DNAME 39, MINFO 14, RP 17, SOA 6, HINFO 13, RT 21, AFSDB 18, KX 36, MX 15,
SIG 24, RRSIG 46, PX 26, NAPTR 35, SRV 33. -/
def canonicalize_rdata (rtype : Nat) (ent : Bytes) : Bytes :=
  let len := ent.length
  let dat := List.drop 2 ent
  let pre := List.take 2 ent
  if rtype = 30 ∨ rtype = 47 ∨ rtype = 2 ∨ rtype = 3 ∨ rtype = 4 ∨ rtype = 5 ∨
     rtype = 7 ∨ rtype = 8 ∨ rtype = 9 ∨ rtype = 12 ∨ rtype = 39 then
    pre ++ query_dname_tolower dat
  else if rtype = 14 ∨ rtype = 17 ∨ rtype = 6 then
    pre ++ lowerAt (query_dname_tolower dat) (dname_valid (query_dname_tolower dat) (len - 2))
  else if rtype = 13 then
    if len - 2 < dat.getD 0 0 + 1 then ent
    else if len - 2 - (dat.getD 0 0 + 1) < (lowercase_text_field dat).getD (dat.getD 0 0 + 1) 0 + 1 then
      pre ++ lowercase_text_field dat
    else
      pre ++ (List.take (dat.getD 0 0 + 1) (lowercase_text_field dat)
        ++ lowercase_text_field (List.drop (dat.getD 0 0 + 1) (lowercase_text_field dat)))
  else if rtype = 21 ∨ rtype = 18 ∨ rtype = 36 ∨ rtype = 15 then
    if len < 2 + 2 + 1 then ent else pre ++ lowerAt dat 2
  else if rtype = 24 ∨ rtype = 46 then
    if len < 2 + 18 + 1 then ent else pre ++ lowerAt dat 18
  else if rtype = 26 then
    if len < 2 + 2 + 1 then ent
    else pre ++ lowerAt (lowerAt dat 2)
      (2 + dname_valid (List.drop 2 (lowerAt dat 2)) (len - 2 - 2))
  else if rtype = 35 then
    if len < 2 + 4 then ent
    else if len - 6 < dat.getD 4 0 + 1 then ent
    else if len - 6 - (dat.getD 4 0 + 1) < dat.getD (4 + dat.getD 4 0 + 1) 0 + 1 then ent
    else if len - 6 - (dat.getD 4 0 + 1) - (dat.getD (4 + dat.getD 4 0 + 1) 0 + 1)
            < dat.getD (4 + dat.getD 4 0 + 1 + dat.getD (4 + dat.getD 4 0 + 1) 0 + 1) 0 + 1 then ent
    else if len - 6 - (dat.getD 4 0 + 1) - (dat.getD (4 + dat.getD 4 0 + 1) 0 + 1)
            - (dat.getD (4 + dat.getD 4 0 + 1 + dat.getD (4 + dat.getD 4 0 + 1) 0 + 1) 0 + 1) < 1 then ent
    else pre ++ lowerAt dat
      (4 + dat.getD 4 0 + 1 + dat.getD (4 + dat.getD 4 0 + 1) 0 + 1
        + dat.getD (4 + dat.getD 4 0 + 1 + dat.getD (4 + dat.getD 4 0 + 1) 0 + 1) 0 + 1)
  else if rtype = 33 then
    if len < 2 + 6 + 1 then ent else pre ++ lowerAt dat 6
  else ent

/-- `rrset_canonical`: create the canonical form in the scratch buffer.  The
`sig` argument is the RRSIG rdata without its rdlen prefix; `siglen` is
18 + signer name length.  Returns the C truth value (always 1: no failure
path exists in this version), the resulting buffer contents, and the bytes at
the `sig` pointer after the call.  Note the order of lines 632 and 633 of the
source: the buffer receives the original-case header first, and
`query_dname_tolower(sig+18)` then lower-cases the signer name in the memory
`sig` points into, which belongs to the input RRset's rdata at the call site
of line 762. -/
def rrset_canonical (k : UbPackedRrsetKey) (sig : Bytes) (siglen : Nat) :
    Bool × Bytes × Bytes :=
  let d := (canonical_sort k).entry_data
  let sig2 := List.take 18 sig ++ query_dname_tolower (List.drop 18 sig)
  let st := (List.range d.count).foldl
    (fun (st : Bytes × Option Bytes) i =>
      let can := match st.2 with
        | some co => co
        | none => insert_can_owner k sig2
      (st.1 ++ can ++ beBytes16 k.rk_type ++ beBytes16 k.rk_class
        ++ List.take 4 (List.drop 4 sig2)
        ++ canonicalize_rdata k.rk_type (d.rr_data.getD i []), some can))
    (List.take siglen sig, none)
  (true, st.1, sig2)

/-- `check_dates`: read expiration and inception as big-endian 32-bit values
from the two byte pointers, pick `now` from the date override (when nonzero)
or the system clock, and require inception not after expiration, inception
not after now, and now not after expiration, all in 32-bit signed
serial-number arithmetic. -/
def check_dates (ve : ValEnv) (expi_p incep_p : Bytes) : Bool :=
  let expi := toSigned32 (beRead32 expi_p)
  let incep := toSigned32 (beRead32 incep_p)
  let now := if ve.date_override ≠ 0 then ve.date_override else ve.sys_time
  if 0 < int32_sub incep expi then false
  else if 0 < int32_sub incep now then false
  else if 0 < int32_sub now expi then false
  else true

/-- The body of `check_dates` with the current time passed explicitly (used
to state what the override mechanism selects). -/
def check_dates_at (now : Int) (expi_p incep_p : Bytes) : Bool :=
  let expi := toSigned32 (beRead32 expi_p)
  let incep := toSigned32 (beRead32 incep_p)
  if 0 < int32_sub incep expi then false
  else if 0 < int32_sub incep now then false
  else if 0 < int32_sub now expi then false
  else true

/-- The date-window condition in the words of claim C2: inception ≤ now,
now ≤ expiration and inception ≤ expiration, where ≤ is the 32-bit signed
"difference not positive" comparison. -/
def claim_dates_ok (incep expi now : Int) : Bool :=
  sle32 incep now && sle32 now expi && sle32 incep expi

/-- `dnskey_verify_rrset_sig`: verify one RRSIG (at `sig_idx`) of `rrset`
with one DNSKEY (at `dnskey_idx`).  `sig` is the rrsig entry with its 2-byte
rdlen prefix; the offsets used below are those of the source: the signer name
at `sig+2+18`, the covered type at `sig+2`, but the algorithm at `sig[2]`,
the keytag `memcmp` at `sig+16` against the host-order `uint16_t` bytes, the
labels field at `sig[3]` and the dates at `sig+8`/`sig+12`.  The final
statement returns `unchecked` (the signature backend is never invoked in this
version of the source). -/
def dnskey_verify_rrset_sig (env : ModuleEnv) (ve : ValEnv)
    (rrset dnskey : UbPackedRrsetKey) (dnskey_idx sig_idx : Nat) : SecStatus :=
  let sig := (rrset_get_rdata rrset (rrset_get_count rrset + sig_idx)).1
  let siglen := (rrset_get_rdata rrset (rrset_get_count rrset + sig_idx)).2
  if siglen < 2 + 20 then SecStatus.bogus
  else if Nat.land (dnskey_get_flags dnskey dnskey_idx) 256 = 0 then SecStatus.bogus
  else if dname_valid (List.drop 20 sig) (siglen - 2 - 18) = 0 then SecStatus.bogus
  else if siglen < 2 + 18 + dname_valid (List.drop 20 sig) (siglen - 2 - 18) + 1 then SecStatus.bogus
  else if query_dname_compare (List.drop 20 sig) dnskey.rk_dname ≠ 0 then SecStatus.bogus
  else if List.take 2 (List.drop 2 sig) ≠ beBytes16 rrset.rk_type then SecStatus.bogus
  else if sig.getD 2 0 ≠ dnskey_get_algo dnskey dnskey_idx then SecStatus.bogus
  else if List.take 2 (List.drop 16 sig) ≠ uint16_le (dnskey_calc_keytag dnskey dnskey_idx) then
    SecStatus.bogus
  else if dname_signame_label_count rrset.rk_dname < sig.getD 3 0 then SecStatus.bogus
  else if check_dates ve (List.drop 8 sig) (List.drop 12 sig) = false then SecStatus.bogus
  else if (rrset_canonical rrset (List.drop 2 sig)
      (18 + dname_valid (List.drop 20 sig) (siglen - 2 - 18))).1 = false then SecStatus.unchecked
  else SecStatus.unchecked

/-- The key loop of `dnskeyset_verify_rrset_sig`: try keys `i, i+1, ...`
(`n` keys remaining); skip keys whose algorithm or keytag does not match the
signature, verify with matching keys, short-circuit on `secure`, and return
`bogus` when the keys are exhausted (both with and without a matching key the
C function returns `sec_status_bogus`; `numchecked` only selects a log
message). -/
def dnskeyset_vrs_from (env : ModuleEnv) (ve : ValEnv)
    (rrset dnskey : UbPackedRrsetKey) (sig_idx tag algo : Nat) : Nat → Nat → SecStatus
  | _, 0 => SecStatus.bogus
  | i, n + 1 =>
    if algo ≠ dnskey_get_algo dnskey i ∨ tag ≠ dnskey_calc_keytag dnskey i then
      dnskeyset_vrs_from env ve rrset dnskey sig_idx tag algo (i + 1) n
    else if dnskey_verify_rrset_sig env ve rrset dnskey i sig_idx = SecStatus.secure then
      SecStatus.secure
    else dnskeyset_vrs_from env ve rrset dnskey sig_idx tag algo (i + 1) n

/-- `dnskeyset_verify_rrset_sig`: verify one signature of `rrset` against
every matching key of the key set. -/
def dnskeyset_verify_rrset_sig (env : ModuleEnv) (ve : ValEnv)
    (rrset dnskey : UbPackedRrsetKey) (sig_idx : Nat) : SecStatus :=
  dnskeyset_vrs_from env ve rrset dnskey sig_idx
    (rrset_get_sig_keytag rrset sig_idx) (rrset_get_sig_algo rrset sig_idx)
    0 (rrset_get_count dnskey)

/-- The signature loop of `dnskeyset_verify_rrset`: try signatures
`i, i+1, ...` (`n` remaining), short-circuit on `secure`, `bogus` when
exhausted. -/
def dnskeyset_vr_from (env : ModuleEnv) (ve : ValEnv)
    (rrset dnskey : UbPackedRrsetKey) : Nat → Nat → SecStatus
  | _, 0 => SecStatus.bogus
  | i, n + 1 =>
    if dnskeyset_verify_rrset_sig env ve rrset dnskey i = SecStatus.secure then SecStatus.secure
    else dnskeyset_vr_from env ve rrset dnskey (i + 1) n

/-- `dnskeyset_verify_rrset`: `bogus` without signatures, else try every
signature against the key set. -/
def dnskeyset_verify_rrset (env : ModuleEnv) (ve : ValEnv)
    (rrset dnskey : UbPackedRrsetKey) : SecStatus :=
  if rrset_get_sigcount rrset = 0 then SecStatus.bogus
  else dnskeyset_vr_from env ve rrset dnskey 0 (rrset_get_sigcount rrset)

/-- The signature loop of `dnskey_verify_rrset` (fixed key index). -/
def dnskey_vr_from (env : ModuleEnv) (ve : ValEnv)
    (rrset dnskey : UbPackedRrsetKey) (dnskey_idx : Nat) : Nat → Nat → SecStatus
  | _, 0 => SecStatus.bogus
  | i, n + 1 =>
    if dnskey_verify_rrset_sig env ve rrset dnskey dnskey_idx i = SecStatus.secure then
      SecStatus.secure
    else dnskey_vr_from env ve rrset dnskey dnskey_idx (i + 1) n

/-- `dnskey_verify_rrset`: `bogus` without signatures, else try every
signature against the one key at `dnskey_idx`. -/
def dnskey_verify_rrset (env : ModuleEnv) (ve : ValEnv)
    (rrset dnskey : UbPackedRrsetKey) (dnskey_idx : Nat) : SecStatus :=
  if rrset_get_sigcount rrset = 0 then SecStatus.bogus
  else dnskey_vr_from env ve rrset dnskey dnskey_idx 0 (rrset_get_sigcount rrset)

/-- Concrete RRSIG rdata entry (with rdlen prefix at bytes 0-1, as stored in
`rr_data`) used to exercise the off-by-two field reads: byte 2 is the high
byte of type_covered (value 5, equal to the DNSKEY algorithm so the source's
`sig[2]` check passes), byte 4 is the true algorithm field (value 7, differing
from the DNSKEY algorithm), byte 5 the true labels field (value 200), bytes
16-17 the little-endian bytes of keytag 1029 (so the source's `memcmp(sig+16)`
passes), bytes 18-19 the true keytag field (value 2313), byte 20 the root
signer name and byte 21 a one-byte signature field. -/
def sigX : Bytes :=
  [0, 20, 5, 0, 7, 200, 0, 0, 0, 1, 0, 0, 0, 0, 0, 0, 5, 4, 9, 9, 0, 0]

/-- Concrete RRSIG rdata entry on which the source's checks and the
specified field layout agree everywhere: algorithm 5 at both byte 2 and
byte 4, labels 0 at bytes 3 and 5, keytag 1029 in host order at bytes 16-17
and in network order at bytes 18-19, and date bytes making both the
`sig+8`/`sig+12` reads and the true expiration/inception fields validate at
override time 2000. -/
def sigP : Bytes :=
  [0, 20, 5, 0, 5, 0, 0, 0, 0, 0, 32, 0, 0, 0, 0, 0, 5, 4, 4, 5, 0, 0]

/-- A DNSKEY rrset with one key: root owner, flags 0x0100 (ZSK bit set),
protocol 3, algorithm 5, empty public key; its keytag is 1029. -/
def dnskeyX : UbPackedRrsetKey :=
  { rk_dname := [0], rk_type := 48, rk_class := 1,
    entry_data := { count := 1, rrsig_count := 0, rr_data := [[0, 4, 1, 0, 3, 5]] } }

/-- An rrset with no data RRs and the single signature `sigX`; owner is the
root name and the type value 1280 has the network-order bytes 5, 0 that match
bytes 2-3 of `sigX`. -/
def rrsetX : UbPackedRrsetKey :=
  { rk_dname := [0], rk_type := 1280, rk_class := 1,
    entry_data := { count := 0, rrsig_count := 1, rr_data := [sigX] } }

/-- Like `rrsetX` with the fully consistent signature `sigP`. -/
def rrsetP : UbPackedRrsetKey :=
  { rk_dname := [0], rk_type := 1280, rk_class := 1,
    entry_data := { count := 0, rrsig_count := 1, rr_data := [sigP] } }

/-- Module environment with a working scratch region. -/
def envX : ModuleEnv :=
  { scratch_ok := true }

/-- Validator environment with date override 2000 (and an unused system
clock value). -/
def veX : ValEnv :=
  { date_override := 2000, sys_time := 0 }


/-- Every exit of the single-signature verifier is `bogus` or `unchecked`:
the final statement of the C function is `return sec_status_unchecked`, with
no call into the public-key signature backend. -/
theorem dnskey_verify_rrset_sig_ne_secure (env : ModuleEnv) (ve : ValEnv)
    (rrset dnskey : UbPackedRrsetKey) (dnskey_idx sig_idx : Nat) :
    dnskey_verify_rrset_sig env ve rrset dnskey dnskey_idx sig_idx ≠ SecStatus.secure := by
  intro hsec
  unfold dnskey_verify_rrset_sig at hsec
  rcases ite_eq_iff.mp hsec with ⟨-, hsec⟩ | ⟨-, hsec⟩
  · exact SecStatus.noConfusion hsec
  rcases ite_eq_iff.mp hsec with ⟨-, hsec⟩ | ⟨-, hsec⟩
  · exact SecStatus.noConfusion hsec
  rcases ite_eq_iff.mp hsec with ⟨-, hsec⟩ | ⟨-, hsec⟩
  · exact SecStatus.noConfusion hsec
  rcases ite_eq_iff.mp hsec with ⟨-, hsec⟩ | ⟨-, hsec⟩
  · exact SecStatus.noConfusion hsec
  rcases ite_eq_iff.mp hsec with ⟨-, hsec⟩ | ⟨-, hsec⟩
  · exact SecStatus.noConfusion hsec
  rcases ite_eq_iff.mp hsec with ⟨-, hsec⟩ | ⟨-, hsec⟩
  · exact SecStatus.noConfusion hsec
  rcases ite_eq_iff.mp hsec with ⟨-, hsec⟩ | ⟨-, hsec⟩
  · exact SecStatus.noConfusion hsec
  rcases ite_eq_iff.mp hsec with ⟨-, hsec⟩ | ⟨-, hsec⟩
  · exact SecStatus.noConfusion hsec
  rcases ite_eq_iff.mp hsec with ⟨-, hsec⟩ | ⟨-, hsec⟩
  · exact SecStatus.noConfusion hsec
  rcases ite_eq_iff.mp hsec with ⟨-, hsec⟩ | ⟨-, hsec⟩
  · exact SecStatus.noConfusion hsec
  rcases ite_eq_iff.mp hsec with ⟨-, hsec⟩ | ⟨-, hsec⟩
  · exact SecStatus.noConfusion hsec
  exact SecStatus.noConfusion hsec

/-- The key loop of `dnskeyset_verify_rrset_sig` only exits with `secure` or
`bogus`. -/
theorem dnskeyset_vrs_from_cases (env : ModuleEnv) (ve : ValEnv)
    (rrset dnskey : UbPackedRrsetKey) (sig_idx tag algo : Nat) :
    ∀ n i, dnskeyset_vrs_from env ve rrset dnskey sig_idx tag algo i n = SecStatus.secure ∨
      dnskeyset_vrs_from env ve rrset dnskey sig_idx tag algo i n = SecStatus.bogus := by
  intro n
  induction n with
  | zero => intro i; exact Or.inr rfl
  | succ n ih =>
    intro i
    unfold dnskeyset_vrs_from
    by_cases h1 : algo ≠ dnskey_get_algo dnskey i ∨ tag ≠ dnskey_calc_keytag dnskey i
    · rw [if_pos h1]; exact ih (i + 1)
    rw [if_neg h1]
    by_cases h2 : dnskey_verify_rrset_sig env ve rrset dnskey i sig_idx = SecStatus.secure
    · rw [if_pos h2]; exact Or.inl rfl
    rw [if_neg h2]; exact ih (i + 1)

/-- The key loop never exits with `secure` either, because the
single-signature verifier never returns `secure`. -/
theorem dnskeyset_vrs_from_ne_secure (env : ModuleEnv) (ve : ValEnv)
    (rrset dnskey : UbPackedRrsetKey) (sig_idx tag algo : Nat) :
    ∀ n i, dnskeyset_vrs_from env ve rrset dnskey sig_idx tag algo i n = SecStatus.bogus := by
  intro n
  induction n with
  | zero => intro i; rfl
  | succ n ih =>
    intro i
    unfold dnskeyset_vrs_from
    by_cases h1 : algo ≠ dnskey_get_algo dnskey i ∨ tag ≠ dnskey_calc_keytag dnskey i
    · rw [if_pos h1]; exact ih (i + 1)
    rw [if_neg h1]
    rw [if_neg (dnskey_verify_rrset_sig_ne_secure env ve rrset dnskey i sig_idx)]
    exact ih (i + 1)

/-- The signature loop of `dnskeyset_verify_rrset` only exits with `secure`
or `bogus`, and exits with `bogus` when no signature verifies `secure`. -/
theorem dnskeyset_vr_from_cases (env : ModuleEnv) (ve : ValEnv)
    (rrset dnskey : UbPackedRrsetKey) :
    ∀ n i, (dnskeyset_vr_from env ve rrset dnskey i n = SecStatus.secure ∨
        dnskeyset_vr_from env ve rrset dnskey i n = SecStatus.bogus) ∧
      ((∀ j, dnskeyset_verify_rrset_sig env ve rrset dnskey j ≠ SecStatus.secure) →
        dnskeyset_vr_from env ve rrset dnskey i n = SecStatus.bogus) := by
  intro n
  induction n with
  | zero => intro i; exact ⟨Or.inr rfl, fun _ => rfl⟩
  | succ n ih =>
    intro i
    unfold dnskeyset_vr_from
    by_cases h1 : dnskeyset_verify_rrset_sig env ve rrset dnskey i = SecStatus.secure
    · rw [if_pos h1]
      exact ⟨Or.inl rfl, fun hno => absurd h1 (hno i)⟩
    rw [if_neg h1]
    exact ⟨(ih (i + 1)).1, fun hno => (ih (i + 1)).2 hno⟩

/-- The signature loop of `dnskey_verify_rrset` only exits with `secure` or
`bogus`, and exits with `bogus` when no signature verifies `secure`. -/
theorem dnskey_vr_from_cases (env : ModuleEnv) (ve : ValEnv)
    (rrset dnskey : UbPackedRrsetKey) (dnskey_idx : Nat) :
    ∀ n i, (dnskey_vr_from env ve rrset dnskey dnskey_idx i n = SecStatus.secure ∨
        dnskey_vr_from env ve rrset dnskey dnskey_idx i n = SecStatus.bogus) ∧
      ((∀ j, dnskey_verify_rrset_sig env ve rrset dnskey dnskey_idx j ≠ SecStatus.secure) →
        dnskey_vr_from env ve rrset dnskey dnskey_idx i n = SecStatus.bogus) := by
  intro n
  induction n with
  | zero => intro i; exact ⟨Or.inr rfl, fun _ => rfl⟩
  | succ n ih =>
    intro i
    unfold dnskey_vr_from
    by_cases h1 : dnskey_verify_rrset_sig env ve rrset dnskey dnskey_idx i = SecStatus.secure
    · rw [if_pos h1]
      exact ⟨Or.inl rfl, fun hno => absurd h1 (hno i)⟩
    rw [if_neg h1]
    exact ⟨(ih (i + 1)).1, fun hno => (ih (i + 1)).2 hno⟩

/-- C1: the claim says `dnskey_verify_rrset_sig` invokes the signature
backend after the precondition checks and the canonical build, and that
`secure` is a possible return value.  In this source the function never
returns `secure` for any input (first conjunct), and on the concrete input
`rrsetP`/`dnskeyX` on which every precondition check passes (both as the
source reads the fields and at the specified field offsets) and the canonical
byte stream is built, it returns `unchecked` without any backend call (second
conjunct). -/
theorem claim_C1_no_backend_call :
    (∀ (env : ModuleEnv) (ve : ValEnv) (rrset dnskey : UbPackedRrsetKey)
      (dnskey_idx sig_idx : Nat),
      dnskey_verify_rrset_sig env ve rrset dnskey dnskey_idx sig_idx = SecStatus.bogus ∨
      dnskey_verify_rrset_sig env ve rrset dnskey dnskey_idx sig_idx = SecStatus.unchecked) ∧
    dnskey_verify_rrset_sig envX veX rrsetP dnskeyX 0 0 = SecStatus.unchecked := by
  constructor
  · intro env ve rrset dnskey dnskey_idx sig_idx
    cases h : dnskey_verify_rrset_sig env ve rrset dnskey dnskey_idx sig_idx with
    | unchecked => exact Or.inr rfl
    | bogus => exact Or.inl rfl
    | secure => exact absurd h (dnskey_verify_rrset_sig_ne_secure env ve rrset dnskey dnskey_idx sig_idx)
  · decide

/-- C2: the claim places the RRSIG expiration at bytes 8..11 and the
inception at bytes 12..15 of the rdata fixed prefix and says the verdict is
`bogus` unless those values and `now` (the date override here) lie in the
signed date window.  On `sigX` the claimed window test fails (inception 1284
is after expiration 0, and now 2000 is after expiration 0), yet
`dnskey_verify_rrset_sig` returns `unchecked`, because the source reads the
dates from `sig+8` and `sig+12` of the rdlen-prefixed entry, two bytes before
the actual fields. -/
theorem claim_C2_dates_read_offset :
    claim_dates_ok (toSigned32 (beRead32 (List.drop 12 (List.drop 2 sigX))))
      (toSigned32 (beRead32 (List.drop 8 (List.drop 2 sigX)))) veX.date_override = false ∧
    dnskey_verify_rrset_sig envX veX rrsetX dnskeyX 0 0 = SecStatus.unchecked := by
  constructor
  · decide
  · decide

/-- C3: the claim says the verdict is `bogus` unless the keytag field at
rdata offsets 16..17 equals the computed keytag of the DNSKEY.  On `sigX`
that field holds 2313 while the DNSKEY keytag is 1029, yet the function
returns `unchecked`: the source compares the bytes at `sig+16` of the
rdlen-prefixed entry (two bytes early) against the in-memory bytes of the
host-order keytag (no `htons`). -/
theorem claim_C3_keytag_read_offset :
    beRead16 (List.drop 16 (List.drop 2 sigX)) = 2313 ∧
    dnskey_calc_keytag dnskeyX 0 = 1029 ∧
    dnskey_verify_rrset_sig envX veX rrsetX dnskeyX 0 0 = SecStatus.unchecked := by
  refine ⟨by decide, by decide, by decide⟩

/-- C4: the claim says the verdict is `bogus` unless the RRSIG algorithm
byte (rdata offset 2) equals the DNSKEY algorithm.  On `sigX` the algorithm
field holds 7 while the DNSKEY algorithm is 5, yet the function returns
`unchecked`: the source compares `sig[2]` of the rdlen-prefixed entry, which
is the high byte of type_covered, not the algorithm field. -/
theorem claim_C4_algo_read_offset :
    List.getD (List.drop 2 sigX) 2 0 = 7 ∧
    dnskey_get_algo dnskeyX 0 = 5 ∧
    dnskey_verify_rrset_sig envX veX rrsetX dnskeyX 0 0 = SecStatus.unchecked := by
  refine ⟨by decide, by decide, by decide⟩

/-- C5: the claim says the verdict is `bogus` when the RRSIG labels byte
(rdata offset 3) exceeds the owner-name label count.  On `sigX` the labels
field holds 200 while the owner has 0 labels, yet the function returns
`unchecked`: the source compares `sig[3]` of the rdlen-prefixed entry, which
is the low byte of type_covered, not the labels field. -/
theorem claim_C5_labels_read_offset :
    List.getD (List.drop 2 sigX) 3 0 = 200 ∧
    dname_signame_label_count rrsetX.rk_dname = 0 ∧
    dnskey_verify_rrset_sig envX veX rrsetX dnskeyX 0 0 = SecStatus.unchecked := by
  refine ⟨by decide, by decide, by decide⟩

/-- Concrete input for the canonicalizer frame claim: an RRSIG header whose
signer name is the single upper-case label "A" (bytes 1, 65, 0 at offsets
18..20), preceding 18 fixed bytes with the labels field 0 and original TTL
bytes 9, 9, 9, 9. -/
def sig6 : Bytes :=
  [0, 1, 5, 0, 9, 9, 9, 9, 0, 0, 0, 0, 0, 0, 0, 0, 0, 0, 1, 65, 0]

/-- An rrset with one data RR (a four-byte rdata of type 1) and the rrsig
whose rdata contains `sig6` after the rdlen prefix. -/
def K6 : UbPackedRrsetKey :=
  { rk_dname := [0], rk_type := 1, rk_class := 1,
    entry_data := { count := 1, rrsig_count := 1, rr_data := [[0, 4, 7, 7, 7, 7], sig6] } }

/-- C6: the claim says `rrset_canonical` (and so the surrounding
`dnskey_verify_rrset_sig` call, which passes `sig+2` pointing into the input
RRset's rrsig rdata at line 762) never modifies any input wire byte and
lower-cases the signer name only inside the scratch buffer.  On `K6`/`sig6`
the call returns the sig bytes with byte 19 lower-cased from 65 to 97 (the
memory `sig` points into is the input rdata), while the scratch buffer keeps
the original upper-case byte 65 at offset 19 because the header was copied
before the lower-casing. -/
theorem claim_C6_input_mutated :
    rrset_canonical K6 sig6 21 =
      (true,
       [0, 1, 5, 0, 9, 9, 9, 9, 0, 0, 0, 0, 0, 0, 0, 0, 0, 0, 1, 65, 0,
        0, 0, 1, 0, 1, 9, 9, 9, 9, 0, 4, 7, 7, 7, 7],
       [0, 1, 5, 0, 9, 9, 9, 9, 0, 0, 0, 0, 0, 0, 0, 0, 0, 0, 1, 97, 0]) ∧
    List.getD sig6 19 0 = 65 := by
  refine ⟨by decide, by decide⟩

/-- C7: with zero RRSIGs both set-level drivers return `bogus`, for every
key set and key index. -/
theorem claim_C7_no_sigs_bogus (env : ModuleEnv) (ve : ValEnv)
    (rrset dnskey : UbPackedRrsetKey) (dnskey_idx : Nat)
    (h : rrset_get_sigcount rrset = 0) :
    dnskeyset_verify_rrset env ve rrset dnskey = SecStatus.bogus ∧
    dnskey_verify_rrset env ve rrset dnskey dnskey_idx = SecStatus.bogus := by
  unfold dnskeyset_verify_rrset dnskey_verify_rrset
  rw [h]
  exact ⟨rfl, rfl⟩

/-- Witness for C7 at a concrete rrset with `rrsig_count = 0`. -/
theorem claim_C7_no_sigs_bogus_witness :
    dnskeyset_verify_rrset envX veX dnskeyX dnskeyX = SecStatus.bogus ∧
    dnskey_verify_rrset envX veX dnskeyX dnskeyX 0 = SecStatus.bogus :=
  claim_C7_no_sigs_bogus envX veX dnskeyX dnskeyX 0 rfl

/-- C9: the set-level drivers never return `unchecked` (their results are
`secure` or `bogus`), and when no signature yields `secure` in the loop they
return `bogus` — an `unchecked` result of a single-signature verification is
discarded and the loop proceeds. -/
theorem claim_C9_drivers_never_unchecked (env : ModuleEnv) (ve : ValEnv)
    (rrset dnskey : UbPackedRrsetKey) (dnskey_idx : Nat) :
    (dnskeyset_verify_rrset env ve rrset dnskey = SecStatus.secure ∨
      dnskeyset_verify_rrset env ve rrset dnskey = SecStatus.bogus) ∧
    (dnskey_verify_rrset env ve rrset dnskey dnskey_idx = SecStatus.secure ∨
      dnskey_verify_rrset env ve rrset dnskey dnskey_idx = SecStatus.bogus) ∧
    ((∀ j, dnskeyset_verify_rrset_sig env ve rrset dnskey j ≠ SecStatus.secure) →
      dnskeyset_verify_rrset env ve rrset dnskey = SecStatus.bogus) ∧
    ((∀ j, dnskey_verify_rrset_sig env ve rrset dnskey dnskey_idx j ≠ SecStatus.secure) →
      dnskey_verify_rrset env ve rrset dnskey dnskey_idx = SecStatus.bogus) := by
  unfold dnskeyset_verify_rrset dnskey_verify_rrset
  by_cases h0 : rrset_get_sigcount rrset = 0
  · rw [if_pos h0, if_pos h0]
    exact ⟨Or.inr rfl, Or.inr rfl, fun _ => rfl, fun _ => rfl⟩
  · rw [if_neg h0, if_neg h0]
    refine ⟨(dnskeyset_vr_from_cases env ve rrset dnskey (rrset_get_sigcount rrset) 0).1,
      (dnskey_vr_from_cases env ve rrset dnskey dnskey_idx (rrset_get_sigcount rrset) 0).1,
      fun hno => (dnskeyset_vr_from_cases env ve rrset dnskey (rrset_get_sigcount rrset) 0).2 hno,
      fun hno => (dnskey_vr_from_cases env ve rrset dnskey dnskey_idx (rrset_get_sigcount rrset) 0).2 hno⟩

/-- Witness for C9 at a concrete input, discharging the no-secure-signature
hypotheses with the fact that the single-signature verifier never returns
`secure`. -/
theorem claim_C9_drivers_never_unchecked_witness :
    dnskeyset_verify_rrset envX veX rrsetX dnskeyX = SecStatus.bogus ∧
    dnskey_verify_rrset envX veX rrsetX dnskeyX 0 = SecStatus.bogus := by
  refine ⟨(claim_C9_drivers_never_unchecked envX veX rrsetX dnskeyX 0).2.2.1 ?_,
    (claim_C9_drivers_never_unchecked envX veX rrsetX dnskeyX 0).2.2.2 ?_⟩
  · intro j
    unfold dnskeyset_verify_rrset_sig
    rw [dnskeyset_vrs_from_ne_secure envX veX rrsetX dnskeyX j
      (rrset_get_sig_keytag rrsetX j) (rrset_get_sig_algo rrsetX j) (rrset_get_count dnskeyX) 0]
    exact fun hsec => SecStatus.noConfusion hsec
  · intro j
    exact dnskey_verify_rrset_sig_ne_secure envX veX rrsetX dnskeyX 0 j

/-- C10: a zero `date_override` makes `check_dates` use the system clock
(it is indistinguishable from no override), and every nonzero override is
used verbatim as `now`, independently of the system clock. -/
theorem claim_C10_override_semantics :
    (∀ (t : Int) (e i : Bytes),
      check_dates { date_override := 0, sys_time := t } e i = check_dates_at t e i) ∧
    (∀ (o t : Int) (e i : Bytes), o ≠ 0 →
      check_dates { date_override := o, sys_time := t } e i = check_dates_at o e i) := by
  constructor
  · intro t e i
    unfold check_dates check_dates_at
    norm_num
  · intro o t e i ho
    unfold check_dates check_dates_at
    simp only [ho, if_true, ne_eq, not_false_iff, ite_true]

/-- Witness for C10 with the nonzero override 2000: the override value is
what the date check uses. -/
theorem claim_C10_override_semantics_witness :
    check_dates veX (List.drop 10 sigX) (List.drop 14 sigX) =
      check_dates_at 2000 (List.drop 10 sigX) (List.drop 14 sigX) :=
  claim_C10_override_semantics.2 2000 0 (List.drop 10 sigX) (List.drop 14 sigX) (by decide)

/-- The DS digest field returned by `ds_get_sigdata` has exactly the length
returned alongside it. -/
theorem ds_sigdata_len (k : UbPackedRrsetKey) (idx : Nat) :
    ((ds_get_sigdata k idx).1.getD []).length = (ds_get_sigdata k idx).2 := by
  unfold ds_get_sigdata
  split_ifs with h
  · rfl
  · simp only [Option.getD_some, List.length_drop, rrset_get_rdata]
    omega

/-- C8: `ds_digest_match_dnskey` returns false whenever the DS digest type is
unsupported (digest size 0) or the DS digest field length differs from that
type's digest size; otherwise, given scratch allocation succeeds, it returns
true exactly when hashing (SHA-1 for DS digest type 1, SHA-256 for type 2)
the concatenation of the lower-cased DNSKEY owner name and the DNSKEY RDATA
without its rdlen prefix yields bytes equal to the DS digest field.  The hash
primitives are abstract parameters producing digests of their nominal
sizes. -/
theorem claim_C8_ds_digest_match (sha1 sha256 : Bytes → Bytes) (env : ModuleEnv)
    (dnskey_rrset : UbPackedRrsetKey) (dnskey_idx : Nat)
    (ds_rrset : UbPackedRrsetKey) (ds_idx : Nat)
    (hlen1 : ∀ x, (sha1 x).length = 20) (hlen2 : ∀ x, (sha256 x).length = 32) :
    (ds_digest_size_algo ds_rrset ds_idx = 0 →
      ds_digest_match_dnskey sha1 sha256 env dnskey_rrset dnskey_idx ds_rrset ds_idx = false) ∧
    ((ds_get_sigdata ds_rrset ds_idx).2 ≠ ds_digest_size_algo ds_rrset ds_idx →
      ds_digest_match_dnskey sha1 sha256 env dnskey_rrset dnskey_idx ds_rrset ds_idx = false) ∧
    (ds_digest_size_algo ds_rrset ds_idx ≠ 0 →
      (ds_get_sigdata ds_rrset ds_idx).2 = ds_digest_size_algo ds_rrset ds_idx →
      env.scratch_ok = true →
      (ds_digest_match_dnskey sha1 sha256 env dnskey_rrset dnskey_idx ds_rrset ds_idx = true ↔
        (if ds_get_digest_algo ds_rrset ds_idx = 1
         then sha1 (query_dname_tolower dnskey_rrset.rk_dname
           ++ List.drop 2 (rrset_get_rdata dnskey_rrset dnskey_idx).1)
         else sha256 (query_dname_tolower dnskey_rrset.rk_dname
           ++ List.drop 2 (rrset_get_rdata dnskey_rrset dnskey_idx).1))
        = (ds_get_sigdata ds_rrset ds_idx).1.getD [])) := by
  refine ⟨?_, ?_, ?_⟩
  · intro h
    unfold ds_digest_match_dnskey
    rw [if_pos h]
  · intro hne
    unfold ds_digest_match_dnskey
    by_cases a : ds_digest_size_algo ds_rrset ds_idx = 0
    · rw [if_pos a]
    rw [if_neg a]
    by_cases b : (ds_get_sigdata ds_rrset ds_idx).1 = none
    · rw [if_pos b]
    rw [if_neg b, if_pos hne]
  · intro hsz hdl hok
    have hA12 : ds_get_digest_algo ds_rrset ds_idx = 1 ∨ ds_get_digest_algo ds_rrset ds_idx = 2 := by
      by_contra hc
      push_neg at hc
      exact hsz (by unfold ds_digest_size_algo; rw [if_neg hc.1, if_neg hc.2])
    have hsome : (ds_get_sigdata ds_rrset ds_idx).1 ≠ none := by
      intro hnone
      unfold ds_get_sigdata at hnone hdl
      split_ifs at hnone hdl with hlt
      exact hsz hdl.symm
    have hdsfull : List.take (ds_get_sigdata ds_rrset ds_idx).2
        ((ds_get_sigdata ds_rrset ds_idx).1.getD []) = (ds_get_sigdata ds_rrset ds_idx).1.getD [] := by
      rw [← ds_sigdata_len ds_rrset ds_idx]
      exact List.take_length _
    unfold ds_digest_match_dnskey
    rw [if_neg hsz, if_neg hsome, if_neg (not_not.mpr hdl), if_neg (by rw [hok]; exact fun hcon => Bool.noConfusion hcon)]
    rcases hA12 with hA | hA
    · have hs20 : ds_digest_size_algo ds_rrset ds_idx = 20 := by
        unfold ds_digest_size_algo; rw [if_pos hA]
      simp only [ds_create_dnskey_digest, if_pos hA]
      rw [hdl, hs20, ← hlen1 (query_dname_tolower dnskey_rrset.rk_dname
        ++ List.drop 2 (rrset_get_rdata dnskey_rrset dnskey_idx).1), List.take_length]
      rw [hlen1 (query_dname_tolower dnskey_rrset.rk_dname
        ++ List.drop 2 (rrset_get_rdata dnskey_rrset dnskey_idx).1), ← hs20, ← hdl, hdsfull]
      split_ifs with hEq
      · simp [hEq]
      · simp [hEq]
    · have hA1 : ds_get_digest_algo ds_rrset ds_idx ≠ 1 := by rw [hA]; exact fun hcon => by omega
      have hs32 : ds_digest_size_algo ds_rrset ds_idx = 32 := by
        unfold ds_digest_size_algo; rw [if_neg hA1, if_pos hA]
      simp only [ds_create_dnskey_digest, if_neg hA1, if_pos hA]
      rw [hdl, hs32, ← hlen2 (query_dname_tolower dnskey_rrset.rk_dname
        ++ List.drop 2 (rrset_get_rdata dnskey_rrset dnskey_idx).1), List.take_length]
      rw [hlen2 (query_dname_tolower dnskey_rrset.rk_dname
        ++ List.drop 2 (rrset_get_rdata dnskey_rrset dnskey_idx).1), ← hs32, ← hdl, hdsfull]
      split_ifs with hEq
      · simp [hEq]
      · simp [hEq]

/-- A stand-in SHA-1 for the C8 witness: constant 20-byte output. -/
def sha1W : Bytes → Bytes :=
  fun _ => List.replicate 20 0

/-- A stand-in SHA-256 for the C8 witness: constant 32-byte output. -/
def sha256W : Bytes → Bytes :=
  fun _ => List.replicate 32 0

/-- A DS rrset whose single RR has digest type 1 and a 20-byte digest field
equal to the stand-in hash output. -/
def dsX : UbPackedRrsetKey :=
  { rk_dname := [0], rk_type := 43, rk_class := 1,
    entry_data := { count := 1, rrsig_count := 0,
                    rr_data := [[0, 24, 0, 0, 5, 1] ++ List.replicate 20 0] } }

/-- Witness for C8: at the concrete DS/DNSKEY pair the preconditions hold and
the digest comparison succeeds, so the matcher returns true. -/
theorem claim_C8_ds_digest_match_witness :
    ds_digest_match_dnskey sha1W sha256W envX dnskeyX 0 dsX 0 = true :=
  ((claim_C8_ds_digest_match sha1W sha256W envX dnskeyX 0 dsX 0
      (fun _ => rfl) (fun _ => rfl)).2.2
    (by decide) (by decide) rfl).mpr (by decide)
